import Mathlib

/-!
Shallow embedding of the `OptimalLoci` class of `src/control/sm/opt_refs.py`:
construction, `torque`, `mtpa` and `mtpv`.

Conventions of the translation:
* Python float arithmetic is idealized over `ℝ`.
* `np.sqrt` applied to a negative number yields IEEE NaN; a NaN component of a
  locus point is represented by `none` (see `npSqrt`, `Point`).
* Python exceptions are represented by `Except.error` with a `PyErr` tag;
  scalar float divisions of the source are guarded because Python raises
  `ZeroDivisionError` on a zero float denominator, and the `return i` of
  `mtpv` with no branch taken raises `UnboundLocalError`.
* The optional attribute `i_d_min` (read via `try/except AttributeError` in
  `__init__` and unconditionally in the SyRM branch of `mtpa`) is an `Option`.
-/

noncomputable section

/-- Python exceptions that the translated methods can raise. -/
inductive PyErr where
  | attributeError
  | zeroDivision
  | unboundLocal
  deriving DecidableEq

/-- Parameter object handed to `OptimalLoci.__init__`; `i_d_min = none`
models a parameter object without the `i_d_min` attribute. -/
structure MotorParameters where
  p : ℝ
  L_d : ℝ
  L_q : ℝ
  psi_f : ℝ
  i_d_min : Option ℝ

/-- Attribute state of an `OptimalLoci` instance after `__init__`. -/
structure OptimalLoci where
  p : ℝ
  L_d : ℝ
  L_q : ℝ
  psi_f : ℝ
  i_d_min : Option ℝ

/-- Translation of `OptimalLoci.__init__`: the parameter fields are copied
verbatim, with no validation; the `try/except AttributeError: pass` around
`self.i_d_min = pars.i_d_min` is modelled by copying the `Option`. -/
def OptimalLoci.init (pars : MotorParameters) : OptimalLoci :=
  ⟨pars.p, pars.L_d, pars.L_q, pars.psi_f, pars.i_d_min⟩

/-- One sample of a locus: d-axis and q-axis current components.  A `none`
component stands for an IEEE NaN produced by `np.sqrt` of a negative
argument. -/
abbrev Point := Option ℝ × Option ℝ

/-- Ordered sequence of locus samples, as returned by `mtpa` / `mtpv`. -/
abbrev Locus := List Point

/-- Scalar model of `np.sqrt`: NaN (`none`) on negative input, otherwise the
real square root. -/
def npSqrt (x : ℝ) : Option ℝ := if x < 0 then none else some (Real.sqrt x)

/-- Model of `np.linspace a b N`.  For `N ≥ 2` the samples are
`a + i * (b - a) / (N - 1)`; for `N = 1` numpy returns `[a]`, which the same
formula gives here because `0 * (b - a) / 0 = 0`; for `N = 0` the list is
empty. -/
def linspace (a b : ℝ) (N : ℕ) : List ℝ :=
  (List.range N).map fun i : ℕ => a + (i : ℝ) * (b - a) / ((N : ℝ) - 1)

/-- Translation of `OptimalLoci.torque`:
`psi = L_d*i.real + 1j*L_q*i.imag + psi_f`,
`T_M = 1.5*p*np.imag(i*np.conj(psi))`. -/
def OptimalLoci.torque (s : OptimalLoci) (i : ℂ) : ℝ :=
  1.5 * s.p *
    (i * (starRingEnd ℂ)
      (((s.L_d * i.re : ℝ) : ℂ) + Complex.I * ((s.L_q * i.im : ℝ) : ℂ)
        + ((s.psi_f : ℝ) : ℂ))).im

/-- One sample of the IPMSM branch of `mtpa`:
`i_a = psi_f/(L_d - L_q)`, `i_d = -i_a/4 - np.sqrt(i_a**2/16 + abs_i**2/2)`,
`i_q = np.sqrt(abs_i**2 - i_d**2)`. -/
def mtpaPoint (s : OptimalLoci) (t : ℝ) : Point :=
  let i_a := s.psi_f / (s.L_d - s.L_q)
  let i_d := (npSqrt (i_a ^ 2 / 16 + t ^ 2 / 2)).map fun r => -i_a / 4 - r
  let i_q := i_d.bind fun x => npSqrt (t ^ 2 - x ^ 2)
  (i_d, i_q)

/-- Translation of `OptimalLoci.mtpa`.  SyRM branch (`psi_f == 0`):
`i_d = np.linspace(0, i_max/np.sqrt(2), N)`, `i_q = i_d` (taken before the
clamp), then `i_d = (i_d < i_d_min)*i_d_min + (i_d >= i_d_min)*i_d`; reading
`self.i_d_min` raises `AttributeError` when the attribute was absent.  IPMSM
branch: `mtpaPoint` over `np.linspace(0, i_max, N)`; the scalar division
`psi_f/(L_d - L_q)` raises `ZeroDivisionError` when `L_d == L_q`. -/
def OptimalLoci.mtpa (s : OptimalLoci) (i_max : ℝ) (N : ℕ) :
    Except PyErr Locus :=
  if s.psi_f = 0 then
    match s.i_d_min with
    | none => .error .attributeError
    | some m =>
        .ok ((linspace 0 (i_max / Real.sqrt 2) N).map fun t =>
          (some (if t < m then m else t), some t))
  else
    if s.L_d - s.L_q = 0 then .error .zeroDivision
    else .ok ((linspace 0 i_max N).map fun t => mtpaPoint s t)

/-- Coefficient `k = L_q/(L_d - L_q)` of the `mtpv` IPMSM branch. -/
def mtpvK (s : OptimalLoci) : ℝ := s.L_q / (s.L_d - s.L_q)

/-- Coefficient `a = L_d**2 + L_q**2` of the `mtpv` IPMSM branch. -/
def mtpvA (s : OptimalLoci) : ℝ := s.L_d ^ 2 + s.L_q ^ 2

/-- Coefficient `b = (2 + k)*psi_f*L_d` of the `mtpv` IPMSM branch. -/
def mtpvB (s : OptimalLoci) : ℝ := (2 + mtpvK s) * s.psi_f * s.L_d

/-- Coefficient `c = (1 + k)*psi_f**2 - (L_q*abs_i)**2` of the `mtpv` IPMSM
branch, at sample magnitude `t`. -/
def mtpvC (s : OptimalLoci) (t : ℝ) : ℝ :=
  (1 + mtpvK s) * s.psi_f ^ 2 - (s.L_q * t) ^ 2

/-- Discriminant `b**2 - 4*a*c` of the `mtpv` quadratic at sample magnitude
`t`. -/
def mtpvDisc (s : OptimalLoci) (t : ℝ) : ℝ :=
  mtpvB s ^ 2 - 4 * mtpvA s * mtpvC s t

/-- One sample of the IPMSM branch of `mtpv`:
`i_d = (-b - np.sqrt(b**2 - 4*a*c))/(2*a)`,
`i_q = np.sqrt(abs_i**2 - i_d**2)`. -/
def mtpvPoint (s : OptimalLoci) (t : ℝ) : Point :=
  let i_d := (npSqrt (mtpvDisc s t)).map fun r => (-mtpvB s - r) / (2 * mtpvA s)
  let i_q := i_d.bind fun x => npSqrt (t ^ 2 - x ^ 2)
  (i_d, i_q)

/-- Translation of `OptimalLoci.mtpv`.  SyRM branch (`psi_f == 0`):
`i = abs_i*np.exp(1j*np.arctan(L_d/L_q))` over `np.linspace(0, i_max, N)`,
with `ZeroDivisionError` when `L_q == 0`.  IPMSM branch, guarded by
`psi_f/L_d < i_max` (the scalar division raises `ZeroDivisionError` when
`L_d == 0`, and `k` raises it when `L_d == L_q`): `mtpvPoint` over
`np.linspace(psi_f/L_d, i_max, N)`.  When no branch assigns `i`, the final
`return i` raises `UnboundLocalError`. -/
def OptimalLoci.mtpv (s : OptimalLoci) (i_max : ℝ) (N : ℕ) :
    Except PyErr Locus :=
  if s.psi_f = 0 then
    if s.L_q = 0 then .error .zeroDivision
    else
      .ok ((linspace 0 i_max N).map fun t =>
        (some (t * Real.cos (Real.arctan (s.L_d / s.L_q))),
         some (t * Real.sin (Real.arctan (s.L_d / s.L_q)))))
  else if s.L_d = 0 then .error .zeroDivision
  else if s.psi_f / s.L_d < i_max then
    if s.L_d - s.L_q = 0 then .error .zeroDivision
    else .ok ((linspace (s.psi_f / s.L_d) i_max N).map fun t => mtpvPoint s t)
  else .error .unboundLocal

/-- Method-call semantics of `torque` for the purity claims: the result
together with the post-call attribute state (the method body assigns no
attribute of `self`, only locals, so the state is returned unchanged). -/
def OptimalLoci.runTorque (s : OptimalLoci) (i : ℂ) : ℝ × OptimalLoci :=
  (s.torque i, s)

/-- Method-call semantics of `mtpa`; no attribute of `self` is assigned. -/
def OptimalLoci.runMtpa (s : OptimalLoci) (i_max : ℝ) (N : ℕ) :
    Except PyErr Locus × OptimalLoci :=
  (s.mtpa i_max N, s)

/-- Method-call semantics of `mtpv`; no attribute of `self` is assigned. -/
def OptimalLoci.runMtpv (s : OptimalLoci) (i_max : ℝ) (N : ℕ) :
    Except PyErr Locus × OptimalLoci :=
  (s.mtpv i_max N, s)

/-- Sample `j` of the locus returned by a call, `none` when the call failed
or the index is out of range. -/
def nthPoint (r : Except PyErr Locus) (j : ℕ) : Option Point :=
  match r with
  | .ok l => l[j]?
  | .error _ => none

/-- Magnitude `np.abs` of a locus point: `sqrt(i_d^2 + i_q^2)`, NaN (`none`)
when either component is NaN. -/
def pointAbs (pt : Point) : Option ℝ :=
  match pt with
  | (some x, some y) => some (Real.sqrt (x ^ 2 + y ^ 2))
  | _ => none

/-- Magnitude of sample `j` of the locus returned by a call. -/
def nthAbs (r : Except PyErr Locus) (j : ℕ) : Option (Option ℝ) :=
  (nthPoint r j).map pointAbs

end

/-! Helper lemmas about the embedding. -/

lemma linspace_length (a b : ℝ) (N : ℕ) : (linspace a b N).length = N := by
  unfold linspace
  rw [List.length_map, List.length_range]

lemma linspace_getElem? (a b : ℝ) {N j : ℕ} (hj : j < N) :
    (linspace a b N)[j]? = some (a + j * (b - a) / ((N : ℝ) - 1)) := by
  unfold linspace
  rw [List.getElem?_map, List.getElem?_range hj, Option.map_some']

lemma npSqrt_of_nonneg {x : ℝ} (h : 0 ≤ x) : npSqrt x = some (Real.sqrt x) := by
  simp [npSqrt, not_lt.mpr h]

lemma npSqrt_of_neg {x : ℝ} (h : x < 0) : npSqrt x = none := by
  simp [npSqrt, h]

lemma mtpaPoint_at_zero (s : OptimalLoci) (h : s.psi_f / (s.L_d - s.L_q) ≤ 0) :
    mtpaPoint s 0 = (some 0, some 0) := by
  unfold mtpaPoint
  have harg : (0:ℝ) ≤ (s.psi_f / (s.L_d - s.L_q)) ^ 2 / 16 + (0:ℝ) ^ 2 / 2 := by
    positivity
  have hs : Real.sqrt ((s.psi_f / (s.L_d - s.L_q)) ^ 2 / 16 + (0:ℝ) ^ 2 / 2)
      = -(s.psi_f / (s.L_d - s.L_q)) / 4 := by
    rw [show (s.psi_f / (s.L_d - s.L_q)) ^ 2 / 16 + (0:ℝ) ^ 2 / 2
        = (-(s.psi_f / (s.L_d - s.L_q)) / 4) ^ 2 by ring]
    exact Real.sqrt_sq (by linarith)
  simp only [mtpaPoint, npSqrt_of_nonneg harg, hs, Option.map_some',
    Option.some_bind, sub_self]
  norm_num [npSqrt, Real.sqrt_zero]

lemma mtpvPoint_eval (s : OptimalLoci) (t rd x y : ℝ)
    (hd : mtpvDisc s t = rd ^ 2) (hrd : 0 ≤ rd)
    (hx : (-mtpvB s - rd) / (2 * mtpvA s) = x)
    (hy : t ^ 2 - x ^ 2 = y ^ 2) (hy0 : 0 ≤ y) :
    mtpvPoint s t = (some x, some y) := by
  unfold mtpvPoint
  rw [hd, npSqrt_of_nonneg (by positivity), Real.sqrt_sq hrd]
  simp only [Option.map_some', Option.some_bind, hx]
  rw [hy, npSqrt_of_nonneg (by positivity), Real.sqrt_sq hy0]

lemma mtpvPoint_nan (s : OptimalLoci) (t : ℝ) (hd : mtpvDisc s t < 0) :
    mtpvPoint s t = (none, none) := by
  unfold mtpvPoint
  rw [npSqrt_of_neg hd]
  rfl

lemma mtpvPoint_iq_nan (s : OptimalLoci) (t rd x : ℝ)
    (hd : mtpvDisc s t = rd ^ 2) (hrd : 0 ≤ rd)
    (hx : (-mtpvB s - rd) / (2 * mtpvA s) = x)
    (hy : t ^ 2 - x ^ 2 < 0) :
    mtpvPoint s t = (some x, none) := by
  unfold mtpvPoint
  rw [hd, npSqrt_of_nonneg (by positivity), Real.sqrt_sq hrd]
  simp only [Option.map_some', Option.some_bind, hx]
  rw [npSqrt_of_neg hy]

/-! Theorems settling the claims. -/

/-- Claim C1: for IPMSM parameters with `psi_f/L_d >= i_max`, the claim says
`mtpv` returns an empty locus and raises no error; the code instead falls
through both branches without assigning `i`, so `return i` raises
`UnboundLocalError`.  This theorem records the actual code behavior at the
divergence. -/
theorem mtpv_knee_unboundLocalError (s : OptimalLoci) (i_max : ℝ) (N : ℕ)
    (h0 : s.psi_f ≠ 0) (hL : s.L_d ≠ 0) (hk : ¬ s.psi_f / s.L_d < i_max) :
    s.mtpv i_max N = .error .unboundLocal := by
  simp [OptimalLoci.mtpv, h0, hL, hk]

/-- Claim C1, witness: a concrete valid IPMSM parameter set with
`psi_f/L_d = 1 >= i_max = 1/2` on which `mtpv` raises. -/
theorem mtpv_knee_unboundLocalError_witness :
    ((OptimalLoci.init ⟨1, 1, 2, 1, none⟩).psi_f ≠ 0
      ∧ (OptimalLoci.init ⟨1, 1, 2, 1, none⟩).L_d ≠ 0
      ∧ ¬ (OptimalLoci.init ⟨1, 1, 2, 1, none⟩).psi_f
            / (OptimalLoci.init ⟨1, 1, 2, 1, none⟩).L_d < (1/2 : ℝ))
    ∧ (OptimalLoci.init ⟨1, 1, 2, 1, none⟩).mtpv (1/2) 3
        = .error .unboundLocal := by
  refine ⟨⟨?_, ?_, ?_⟩, mtpv_knee_unboundLocalError _ _ _ ?_ ?_ ?_⟩ <;>
    norm_num [OptimalLoci.init]

/-- Claim C2, counterexample: for the SyRM parameter set
`p=1, L_d=2, L_q=1, psi_f=0` with `i_d_min` absent, `mtpa(1, 2)` does not
return the claimed unclamped locus with `i_d == i_q`: it raises
`AttributeError` because the SyRM branch unconditionally reads
`self.i_d_min`. -/
theorem mtpa_syrm_absent_cex :
    (OptimalLoci.init ⟨1, 2, 1, 0, none⟩).mtpa 1 2 = .error .attributeError := by
  norm_num [OptimalLoci.mtpa, OptimalLoci.init]

/-- Claim C2, amended: for every SyRM parameter set (`psi_f == 0`) in which
`i_d_min` is absent, and every `i_max` and `N`, `mtpa(i_max, N)` fails with
`AttributeError` (the SyRM branch always reads `i_d_min` to apply the floor)
and returns no locus. -/
theorem mtpa_syrm_absent_attr (pars : MotorParameters) (i_max : ℝ) (N : ℕ)
    (h0 : pars.psi_f = 0) (hm : pars.i_d_min = none) :
    (OptimalLoci.init pars).mtpa i_max N = .error .attributeError := by
  simp [OptimalLoci.mtpa, OptimalLoci.init, h0, hm]

/-- Claim C2, witness for the amended theorem at a concrete SyRM parameter
set without `i_d_min`. -/
theorem mtpa_syrm_absent_attr_witness :
    ((⟨2, 1, 3, 0, none⟩ : MotorParameters).psi_f = 0
      ∧ (⟨2, 1, 3, 0, none⟩ : MotorParameters).i_d_min = none)
    ∧ (OptimalLoci.init ⟨2, 1, 3, 0, none⟩).mtpa 5 7
        = .error .attributeError :=
  ⟨⟨rfl, rfl⟩, mtpa_syrm_absent_attr _ 5 7 rfl rfl⟩

/-- Claim C3, counterexample: construction with `L_d = -1 <= 0` does not
fail with `InvalidParameterError` as claimed; it succeeds and the resulting
solver is fully operational (here `mtpa(1, 1)` returns a locus). -/
theorem init_invalid_cex :
    (OptimalLoci.init ⟨1, -1, 1, 1, none⟩).mtpa 1 1 = .ok [(some 0, some 0)] := by
  have h : (OptimalLoci.init ⟨1, -1, 1, 1, none⟩).mtpa 1 1
      = .ok ((linspace 0 1 1).map fun t =>
          mtpaPoint (OptimalLoci.init ⟨1, -1, 1, 1, none⟩) t) := by
    norm_num [OptimalLoci.mtpa, OptimalLoci.init]
  rw [h]
  have hl : linspace 0 1 1 = [0] := by
    simp [linspace, List.range_succ]
  rw [hl]
  simp only [List.map_cons, List.map_nil]
  rw [mtpaPoint_at_zero _ (by norm_num [OptimalLoci.init])]

/-- Claim C3, amended: construction performs no validation at all.  For every
parameter object, including those invalid in the claim's sense
(`L_d <= 0`, `L_q <= 0`, `psi_f < 0` or `pole_pairs <= 0`), `__init__`
succeeds and stores the fields verbatim. -/
theorem init_no_validation (pars : MotorParameters)
    (h : pars.L_d ≤ 0 ∨ pars.L_q ≤ 0 ∨ pars.psi_f < 0 ∨ pars.p ≤ 0) :
    OptimalLoci.init pars
      = ⟨pars.p, pars.L_d, pars.L_q, pars.psi_f, pars.i_d_min⟩ := rfl

/-- Claim C3, witness for the amended theorem at a concrete invalid
parameter set (`L_d = -1`). -/
theorem init_no_validation_witness :
    ((⟨1, -1, 1, 1, none⟩ : MotorParameters).L_d ≤ 0
      ∨ (⟨1, -1, 1, 1, none⟩ : MotorParameters).L_q ≤ 0
      ∨ (⟨1, -1, 1, 1, none⟩ : MotorParameters).psi_f < 0
      ∨ (⟨1, -1, 1, 1, none⟩ : MotorParameters).p ≤ 0)
    ∧ OptimalLoci.init ⟨1, -1, 1, 1, none⟩ = ⟨1, -1, 1, 1, none⟩ :=
  ⟨Or.inl (by norm_num), init_no_validation _ (Or.inl (by norm_num))⟩

/-- Claim C9: `torque`, `mtpa` and `mtpv` mutate no stored attribute (the
post-call state equals the pre-call state), and calling each twice with
identical arguments yields identical results. -/
theorem methods_pure_idempotent (s : OptimalLoci) (i : ℂ) (i_max : ℝ) (N : ℕ) :
    (s.runTorque i).2 = s ∧ (s.runMtpa i_max N).2 = s ∧ (s.runMtpv i_max N).2 = s
    ∧ (s.runTorque i).1 = (((s.runTorque i).2).runTorque i).1
    ∧ (s.runMtpa i_max N).1 = (((s.runMtpa i_max N).2).runMtpa i_max N).1
    ∧ (s.runMtpv i_max N).1 = (((s.runMtpv i_max N).2).runMtpv i_max N).1 :=
  ⟨rfl, rfl, rfl, rfl, rfl, rfl⟩

/-- Claim C4, counterexample: on a valid IPMSM parameter set
(`p=1, L_d=1, L_q=2, psi_f=1`), `mtpa(-1, 1)` (with `i_max = -1 <= 0` and
`N = 1 < 2`) and `mtpv(2, 1)` (with `N = 1 < 2`) both return a locus instead
of failing with `InvalidArgumentError`. -/
theorem call_no_validation_cex :
    (OptimalLoci.init ⟨1, 1, 2, 1, none⟩).mtpa (-1) 1 = .ok [(some 0, some 0)]
    ∧ (OptimalLoci.init ⟨1, 1, 2, 1, none⟩).mtpv 2 1
        = .ok [(some (-1), some 0)] := by
  constructor
  · have h : (OptimalLoci.init ⟨1, 1, 2, 1, none⟩).mtpa (-1) 1
        = .ok ((linspace 0 (-1) 1).map fun t =>
            mtpaPoint (OptimalLoci.init ⟨1, 1, 2, 1, none⟩) t) := by
      norm_num [OptimalLoci.mtpa, OptimalLoci.init]
    rw [h, show linspace 0 (-1) 1 = [0] by simp [linspace, List.range_succ]]
    simp only [List.map_cons, List.map_nil]
    rw [mtpaPoint_at_zero _ (by norm_num [OptimalLoci.init])]
  · have h : (OptimalLoci.init ⟨1, 1, 2, 1, none⟩).mtpv 2 1
        = .ok ((linspace 1 2 1).map fun t =>
            mtpvPoint (OptimalLoci.init ⟨1, 1, 2, 1, none⟩) t) := by
      norm_num [OptimalLoci.mtpv, OptimalLoci.init]
    rw [h, show linspace 1 2 1 = [1] by simp [linspace, List.range_succ]]
    simp only [List.map_cons, List.map_nil]
    rw [mtpvPoint_eval _ 1 10 (-1) 0 ?_ (by norm_num) ?_ (by norm_num)
      (by norm_num)]
    · norm_num [mtpvDisc, mtpvA, mtpvB, mtpvC, mtpvK, OptimalLoci.init]
    · norm_num [mtpvA, mtpvB, mtpvK, OptimalLoci.init]

/-- Claim C4, amended: `mtpa` and `mtpv` perform no argument validation and
never raise an `InvalidArgumentError` (no such error exists in the code).
For any `i_max` (including `i_max <= 0`) and any number of points `N`
(including `N < 2`), on parameters that reach the IPMSM formulas the calls
return a locus of exactly `N` points sampled on the (possibly degenerate)
grid. -/
theorem call_no_validation (pars : MotorParameters) (i_max : ℝ) (N : ℕ)
    (h0 : pars.psi_f ≠ 0) (hdq : pars.L_d - pars.L_q ≠ 0)
    (hLd : pars.L_d ≠ 0) (hknee : pars.psi_f / pars.L_d < i_max) :
    (∃ l, (OptimalLoci.init pars).mtpa i_max N = .ok l ∧ l.length = N)
    ∧ ∃ l, (OptimalLoci.init pars).mtpv i_max N = .ok l ∧ l.length = N := by
  constructor
  · refine ⟨(linspace 0 i_max N).map fun t =>
      mtpaPoint (OptimalLoci.init pars) t, ?_, ?_⟩
    · simp [OptimalLoci.mtpa, OptimalLoci.init, h0, hdq]
    · rw [List.length_map, linspace_length]
  · refine ⟨(linspace (pars.psi_f / pars.L_d) i_max N).map fun t =>
      mtpvPoint (OptimalLoci.init pars) t, ?_, ?_⟩
    · simp [OptimalLoci.mtpv, OptimalLoci.init, h0, hdq, hLd, hknee]
    · rw [List.length_map, linspace_length]

/-- Claim C4, witness for the amended theorem: a valid IPMSM parameter set
called with `N = 0 < 2`. -/
theorem call_no_validation_witness :
    ((⟨1, 1, 2, 1, none⟩ : MotorParameters).psi_f ≠ 0
      ∧ (⟨1, 1, 2, 1, none⟩ : MotorParameters).L_d
          - (⟨1, 1, 2, 1, none⟩ : MotorParameters).L_q ≠ 0
      ∧ (⟨1, 1, 2, 1, none⟩ : MotorParameters).L_d ≠ 0
      ∧ (⟨1, 1, 2, 1, none⟩ : MotorParameters).psi_f
          / (⟨1, 1, 2, 1, none⟩ : MotorParameters).L_d < (2:ℝ))
    ∧ ((∃ l, (OptimalLoci.init ⟨1, 1, 2, 1, none⟩).mtpa 2 0 = .ok l
          ∧ l.length = 0)
        ∧ ∃ l, (OptimalLoci.init ⟨1, 1, 2, 1, none⟩).mtpv 2 0 = .ok l
          ∧ l.length = 0) := by
  refine ⟨⟨?_, ?_, ?_, ?_⟩, call_no_validation _ 2 0 ?_ ?_ ?_ ?_⟩ <;> norm_num

/-- Claim C6: `torque(i)` equals
`1.5 * pole_pairs * Im(i * conj(L_d*Re(i) + 1j*L_q*Im(i) + psi_f))`, which
unfolds over the components to
`1.5 * p * (Im(i)*(L_d*Re(i) + psi_f) - Re(i)*(L_q*Im(i)))`, and in
particular `torque(0) = 0`. -/
theorem torque_formula (pars : MotorParameters) (i : ℂ)
    (hLd : 0 < pars.L_d) (hLq : 0 < pars.L_q) (hpsi : 0 ≤ pars.psi_f)
    (hp : 0 < pars.p) :
    (OptimalLoci.init pars).torque i
        = 1.5 * pars.p * (i * (starRingEnd ℂ)
            (((pars.L_d * i.re : ℝ) : ℂ) + Complex.I * ((pars.L_q * i.im : ℝ) : ℂ)
              + ((pars.psi_f : ℝ) : ℂ))).im
    ∧ (OptimalLoci.init pars).torque i
        = 1.5 * pars.p * (i.im * (pars.L_d * i.re + pars.psi_f)
            - i.re * (pars.L_q * i.im))
    ∧ (OptimalLoci.init pars).torque 0 = 0 := by
  refine ⟨rfl, ?_, ?_⟩
  · unfold OptimalLoci.torque OptimalLoci.init
    simp only [Complex.mul_im, Complex.add_re, Complex.add_im, Complex.mul_re,
      Complex.I_re, Complex.I_im, Complex.ofReal_re, Complex.ofReal_im,
      Complex.conj_re, Complex.conj_im]
    ring
  · unfold OptimalLoci.torque OptimalLoci.init
    simp

/-- Claim C6, witness at a concrete valid parameter set and current. -/
theorem torque_formula_witness :
    ((0:ℝ) < (⟨3, 1, 2, 1, none⟩ : MotorParameters).L_d
      ∧ (0:ℝ) < (⟨3, 1, 2, 1, none⟩ : MotorParameters).L_q
      ∧ (0:ℝ) ≤ (⟨3, 1, 2, 1, none⟩ : MotorParameters).psi_f
      ∧ (0:ℝ) < (⟨3, 1, 2, 1, none⟩ : MotorParameters).p)
    ∧ ((OptimalLoci.init ⟨3, 1, 2, 1, none⟩).torque (1 + Complex.I)
        = 1.5 * (3:ℝ) * ((1 + Complex.I).im
            * (1 * (1 + Complex.I).re + 1)
          - (1 + Complex.I).re * (2 * (1 + Complex.I).im))
        ∧ (OptimalLoci.init ⟨3, 1, 2, 1, none⟩).torque 0 = 0) := by
  refine ⟨⟨by norm_num, by norm_num, by norm_num, by norm_num⟩, ?_, ?_⟩
  · exact (torque_formula ⟨3, 1, 2, 1, none⟩ (1 + Complex.I) (by norm_num)
      (by norm_num) (by norm_num) (by norm_num)).2.1
  · exact (torque_formula ⟨3, 1, 2, 1, none⟩ (1 + Complex.I) (by norm_num)
      (by norm_num) (by norm_num) (by norm_num)).2.2

/-- Claim C8: for SyRM parameters with `i_d_min` present, `mtpa` keeps all
`N` samples, clamps each sampled `i_d` below `i_d_min` up to `i_d_min`
element-wise (the q-axis component keeps the unclamped sample), and every
returned real part is at least `i_d_min`. -/
theorem mtpa_syrm_clamp (pars : MotorParameters) (m i_max : ℝ) (N : ℕ)
    (h0 : pars.psi_f = 0) (hm : pars.i_d_min = some m)
    (hi : 0 < i_max) (hN : 2 ≤ N) :
    Except.map List.length ((OptimalLoci.init pars).mtpa i_max N) = .ok N
    ∧ ∀ j, j < N →
        nthPoint ((OptimalLoci.init pars).mtpa i_max N) j
          = some (some (if (0:ℝ) + (j:ℝ) * (i_max / Real.sqrt 2 - 0) / ((N:ℝ) - 1) < m
                    then m
                    else (0:ℝ) + (j:ℝ) * (i_max / Real.sqrt 2 - 0) / ((N:ℝ) - 1)),
                  some ((0:ℝ) + (j:ℝ) * (i_max / Real.sqrt 2 - 0) / ((N:ℝ) - 1)))
        ∧ m ≤ (if (0:ℝ) + (j:ℝ) * (i_max / Real.sqrt 2 - 0) / ((N:ℝ) - 1) < m
                then m
                else (0:ℝ) + (j:ℝ) * (i_max / Real.sqrt 2 - 0) / ((N:ℝ) - 1)) := by
  have hcall : (OptimalLoci.init pars).mtpa i_max N
      = .ok ((linspace 0 (i_max / Real.sqrt 2) N).map fun t =>
          (some (if t < m then m else t), some t)) := by
    simp [OptimalLoci.mtpa, OptimalLoci.init, h0, hm]
  refine ⟨?_, ?_⟩
  · rw [hcall]
    simp only [Except.map, List.length_map, linspace_length]
  · intro j hj
    rw [hcall]
    simp only [nthPoint]
    rw [List.getElem?_map, linspace_getElem? _ _ hj, Option.map_some']
    refine ⟨rfl, ?_⟩
    split
    · exact le_refl m
    · next hge => exact not_lt.mp hge

/-- Claim C8, witness at a concrete SyRM parameter set with
`i_d_min = 1/2`. -/
theorem mtpa_syrm_clamp_witness :
    ((⟨1, 2, 1, 0, some (1/2)⟩ : MotorParameters).psi_f = 0
      ∧ (⟨1, 2, 1, 0, some (1/2)⟩ : MotorParameters).i_d_min = some (1/2)
      ∧ (0:ℝ) < 1 ∧ 2 ≤ 2)
    ∧ (Except.map List.length
          ((OptimalLoci.init ⟨1, 2, 1, 0, some (1/2)⟩).mtpa 1 2) = .ok 2
        ∧ ∀ j, j < 2 →
          nthPoint ((OptimalLoci.init ⟨1, 2, 1, 0, some (1/2)⟩).mtpa 1 2) j
            = some (some (if (0:ℝ) + (j:ℝ) * ((1:ℝ) / Real.sqrt 2 - 0) / (((2:ℕ):ℝ) - 1) < 1/2
                      then (1/2 : ℝ)
                      else (0:ℝ) + (j:ℝ) * ((1:ℝ) / Real.sqrt 2 - 0) / (((2:ℕ):ℝ) - 1)),
                    some ((0:ℝ) + (j:ℝ) * ((1:ℝ) / Real.sqrt 2 - 0) / (((2:ℕ):ℝ) - 1)))
          ∧ (1/2 : ℝ) ≤ (if (0:ℝ) + (j:ℝ) * ((1:ℝ) / Real.sqrt 2 - 0) / (((2:ℕ):ℝ) - 1) < 1/2
                      then (1/2 : ℝ)
                      else (0:ℝ) + (j:ℝ) * ((1:ℝ) / Real.sqrt 2 - 0) / (((2:ℕ):ℝ) - 1))) := by
  refine ⟨⟨rfl, rfl, by norm_num, by norm_num⟩, ?_⟩
  exact mtpa_syrm_clamp ⟨1, 2, 1, 0, some (1/2)⟩ (1/2) 1 2 rfl rfl
    (by norm_num) (by norm_num)

/-- Claim C5, counterexample: parameters `p=1, L_d=1, L_q=1/2, psi_f=-1`
reach the IPMSM branch of `mtpv` (`psi_f != 0`, `psi_f/L_d = -1 < i_max = 1`);
at the middle sample `|i| = 0` the discriminant is `-1 < 0`, yet the call
does not fail with `NumericDomainError`: it returns a locus whose middle
point is NaN (`np.sqrt` of a negative number). -/
theorem mtpv_negative_disc_cex :
    mtpvDisc (OptimalLoci.init ⟨1, 1, 1/2, -1, none⟩) 0 = -1
    ∧ (OptimalLoci.init ⟨1, 1, 1/2, -1, none⟩).mtpv 1 3
        = .ok [(some 1, some 0), (none, none), (some 1, some 0)] := by
  constructor
  · norm_num [mtpvDisc, mtpvA, mtpvB, mtpvC, mtpvK, OptimalLoci.init]
  · have h : (OptimalLoci.init ⟨1, 1, 1/2, -1, none⟩).mtpv 1 3
        = .ok ((linspace ((-1:ℝ)/1) 1 3).map fun t =>
            mtpvPoint (OptimalLoci.init ⟨1, 1, 1/2, -1, none⟩) t) := by
      unfold OptimalLoci.mtpv OptimalLoci.init
      rw [if_neg (by norm_num), if_neg (by norm_num), if_pos (by norm_num),
        if_neg (by norm_num)]
    rw [h, show linspace ((-1:ℝ)/1) 1 3 = [-1, 0, 1] by
      norm_num [linspace, List.range_succ]]
    simp only [List.map_cons, List.map_nil]
    rw [mtpvPoint_eval _ (-1) (1/2) 1 0
        (by norm_num [mtpvDisc, mtpvA, mtpvB, mtpvC, mtpvK, OptimalLoci.init])
        (by norm_num)
        (by norm_num [mtpvA, mtpvB, mtpvK, OptimalLoci.init])
        (by norm_num) (by norm_num),
      mtpvPoint_nan _ 0
        (by norm_num [mtpvDisc, mtpvA, mtpvB, mtpvC, mtpvK, OptimalLoci.init]),
      mtpvPoint_eval _ 1 (1/2) 1 0
        (by norm_num [mtpvDisc, mtpvA, mtpvB, mtpvC, mtpvK, OptimalLoci.init])
        (by norm_num)
        (by norm_num [mtpvA, mtpvB, mtpvK, OptimalLoci.init])
        (by norm_num) (by norm_num)]

/-- Claim C5, amended: when the discriminant `b^2 - 4*a*c` is negative at a
sampled magnitude, the IPMSM branch of `mtpv` does not fail: `np.sqrt`
produces NaN for that sample, the call returns normally with all `N` points,
and the affected point has NaN in both components.  No `NumericDomainError`
exists in the code. -/
theorem mtpv_negative_disc_nan (s : OptimalLoci) (i_max : ℝ) (N j : ℕ)
    (h0 : s.psi_f ≠ 0) (hLd : s.L_d ≠ 0) (hknee : s.psi_f / s.L_d < i_max)
    (hdq : s.L_d - s.L_q ≠ 0) (hj : j < N)
    (hdisc : mtpvDisc s (s.psi_f / s.L_d
        + (j:ℝ) * (i_max - s.psi_f / s.L_d) / ((N:ℝ) - 1)) < 0) :
    Except.map List.length (s.mtpv i_max N) = .ok N
    ∧ nthPoint (s.mtpv i_max N) j = some (none, none) := by
  have hcall : s.mtpv i_max N
      = .ok ((linspace (s.psi_f / s.L_d) i_max N).map fun t =>
          mtpvPoint s t) := by
    simp [OptimalLoci.mtpv, h0, hLd, hknee, hdq]
  constructor
  · rw [hcall]
    simp only [Except.map, List.length_map, linspace_length]
  · rw [hcall]
    simp only [nthPoint]
    rw [List.getElem?_map, linspace_getElem? _ _ hj, Option.map_some',
      mtpvPoint_nan _ _ hdisc]

/-- Claim C5, witness for the amended theorem at the concrete parameter set
of the counterexample, sample index 1. -/
theorem mtpv_negative_disc_nan_witness :
    ((OptimalLoci.init ⟨1, 1, 1/2, -1, none⟩).psi_f ≠ 0
      ∧ (OptimalLoci.init ⟨1, 1, 1/2, -1, none⟩).L_d ≠ 0
      ∧ (OptimalLoci.init ⟨1, 1, 1/2, -1, none⟩).psi_f
          / (OptimalLoci.init ⟨1, 1, 1/2, -1, none⟩).L_d < (1:ℝ)
      ∧ (OptimalLoci.init ⟨1, 1, 1/2, -1, none⟩).L_d
          - (OptimalLoci.init ⟨1, 1, 1/2, -1, none⟩).L_q ≠ 0
      ∧ 1 < 3
      ∧ mtpvDisc (OptimalLoci.init ⟨1, 1, 1/2, -1, none⟩)
          ((OptimalLoci.init ⟨1, 1, 1/2, -1, none⟩).psi_f
              / (OptimalLoci.init ⟨1, 1, 1/2, -1, none⟩).L_d
            + ((1:ℕ):ℝ) * ((1:ℝ)
              - (OptimalLoci.init ⟨1, 1, 1/2, -1, none⟩).psi_f
                / (OptimalLoci.init ⟨1, 1, 1/2, -1, none⟩).L_d)
              / (((3:ℕ):ℝ) - 1)) < 0)
    ∧ (Except.map List.length
          ((OptimalLoci.init ⟨1, 1, 1/2, -1, none⟩).mtpv 1 3) = .ok 3
        ∧ nthPoint ((OptimalLoci.init ⟨1, 1, 1/2, -1, none⟩).mtpv 1 3) 1
            = some (none, none)) := by
  refine ⟨⟨?_, ?_, ?_, ?_, ?_, ?_⟩,
    mtpv_negative_disc_nan _ 1 3 1 ?_ ?_ ?_ ?_ ?_ ?_⟩ <;>
    norm_num [OptimalLoci.init, mtpvDisc, mtpvA, mtpvB, mtpvC, mtpvK]

lemma mtpa_id_bounds (i_a t : ℝ) (hia : i_a < 0) :
    -i_a / 4 - Real.sqrt (i_a ^ 2 / 16 + t ^ 2 / 2) ≤ 0
    ∧ (-i_a / 4 - Real.sqrt (i_a ^ 2 / 16 + t ^ 2 / 2)) ^ 2 ≤ t ^ 2 := by
  have hu : 0 < -i_a / 4 := by linarith
  have harg : (0:ℝ) ≤ i_a ^ 2 / 16 + t ^ 2 / 2 := by positivity
  have hs0 : 0 ≤ Real.sqrt (i_a ^ 2 / 16 + t ^ 2 / 2) := Real.sqrt_nonneg _
  have hs2 : Real.sqrt (i_a ^ 2 / 16 + t ^ 2 / 2) ^ 2 = i_a ^ 2 / 16 + t ^ 2 / 2 :=
    Real.sq_sqrt harg
  have hus : -i_a / 4 ≤ Real.sqrt (i_a ^ 2 / 16 + t ^ 2 / 2) := by
    nlinarith [hs2, hs0, hu, sq_nonneg t]
  refine ⟨by linarith, ?_⟩
  nlinarith [hs2, hus, hu, sq_nonneg t,
    mul_nonneg (le_of_lt hu) (sub_nonneg.mpr hus)]

lemma mtpaPoint_eval_neg_ia (s : OptimalLoci) (t : ℝ)
    (hia : s.psi_f / (s.L_d - s.L_q) < 0) :
    mtpaPoint s t
      = (some (-(s.psi_f / (s.L_d - s.L_q)) / 4
            - Real.sqrt ((s.psi_f / (s.L_d - s.L_q)) ^ 2 / 16 + t ^ 2 / 2)),
         some (Real.sqrt (t ^ 2 - (-(s.psi_f / (s.L_d - s.L_q)) / 4
            - Real.sqrt ((s.psi_f / (s.L_d - s.L_q)) ^ 2 / 16 + t ^ 2 / 2)) ^ 2))) := by
  have harg : (0:ℝ) ≤ (s.psi_f / (s.L_d - s.L_q)) ^ 2 / 16 + t ^ 2 / 2 := by
    positivity
  have h2 := (mtpa_id_bounds (s.psi_f / (s.L_d - s.L_q)) t hia).2
  simp only [mtpaPoint, npSqrt_of_nonneg harg, Option.map_some', Option.some_bind]
  rw [npSqrt_of_nonneg (by linarith)]

/-- Claim C10: for valid IPMSM parameters with `L_d < L_q` (so that
`i_a = psi_f/(L_d - L_q) < 0`), every `mtpa` sample has `i_d <= 0` and
`i_d^2 <= |i|^2`, both square roots receive nonnegative arguments (no
component is NaN), and the sample at index 0 is exactly the origin. -/
theorem mtpa_ipmsm_safe (pars : MotorParameters) (i_max : ℝ) (N : ℕ)
    (hp : 0 < pars.p) (hLd : 0 < pars.L_d) (hLq : 0 < pars.L_q)
    (hsal : pars.L_d < pars.L_q) (hpsi : 0 < pars.psi_f)
    (hi : 0 < i_max) (hN : 2 ≤ N) :
    (∀ j, j < N → ∃ x y : ℝ,
        nthPoint ((OptimalLoci.init pars).mtpa i_max N) j
          = some (some x, some y)
        ∧ x ≤ 0 ∧ x ^ 2 ≤ ((0:ℝ) + (j:ℝ) * (i_max - 0) / ((N:ℝ) - 1)) ^ 2)
    ∧ nthPoint ((OptimalLoci.init pars).mtpa i_max N) 0
        = some (some 0, some 0) := by
  have hia : (OptimalLoci.init pars).psi_f
      / ((OptimalLoci.init pars).L_d - (OptimalLoci.init pars).L_q) < 0 :=
    div_neg_of_pos_of_neg hpsi (sub_neg.mpr hsal)
  have hcall : (OptimalLoci.init pars).mtpa i_max N
      = .ok ((linspace 0 i_max N).map fun t =>
          mtpaPoint (OptimalLoci.init pars) t) := by
    simp [OptimalLoci.mtpa, OptimalLoci.init, hpsi.ne',
      sub_ne_zero.mpr (ne_of_lt hsal)]
  constructor
  · intro j hj
    rw [hcall]
    simp only [nthPoint]
    rw [List.getElem?_map, linspace_getElem? _ _ hj, Option.map_some',
      mtpaPoint_eval_neg_ia _ _ hia]
    exact ⟨_, _, rfl, (mtpa_id_bounds _ _ hia).1, (mtpa_id_bounds _ _ hia).2⟩
  · have h0N : 0 < N := by omega
    rw [hcall]
    simp only [nthPoint]
    rw [List.getElem?_map, linspace_getElem? _ _ h0N, Option.map_some',
      show (0:ℝ) + ((0:ℕ):ℝ) * (i_max - 0) / ((N:ℝ) - 1) = 0 by norm_num,
      mtpaPoint_at_zero _ (le_of_lt hia)]

/-- Claim C10, witness at a concrete IPMSM parameter set with
`L_d = 1 < L_q = 2`. -/
theorem mtpa_ipmsm_safe_witness :
    ((0:ℝ) < (⟨3, 1, 2, 1, none⟩ : MotorParameters).p
      ∧ (0:ℝ) < (⟨3, 1, 2, 1, none⟩ : MotorParameters).L_d
      ∧ (0:ℝ) < (⟨3, 1, 2, 1, none⟩ : MotorParameters).L_q
      ∧ (⟨3, 1, 2, 1, none⟩ : MotorParameters).L_d
          < (⟨3, 1, 2, 1, none⟩ : MotorParameters).L_q
      ∧ (0:ℝ) < (⟨3, 1, 2, 1, none⟩ : MotorParameters).psi_f
      ∧ (0:ℝ) < 5 ∧ 2 ≤ 4)
    ∧ ((∀ j, j < 4 → ∃ x y : ℝ,
          nthPoint ((OptimalLoci.init ⟨3, 1, 2, 1, none⟩).mtpa 5 4) j
            = some (some x, some y)
          ∧ x ≤ 0 ∧ x ^ 2 ≤ ((0:ℝ) + (j:ℝ) * ((5:ℝ) - 0) / (((4:ℕ):ℝ) - 1)) ^ 2)
        ∧ nthPoint ((OptimalLoci.init ⟨3, 1, 2, 1, none⟩).mtpa 5 4) 0
            = some (some 0, some 0)) := by
  refine ⟨⟨?_, ?_, ?_, ?_, ?_, ?_, ?_⟩,
    mtpa_ipmsm_safe ⟨3, 1, 2, 1, none⟩ 5 4 ?_ ?_ ?_ ?_ ?_ ?_ ?_⟩ <;> norm_num

set_option maxHeartbeats 1600000 in
lemma root_props_pure (d q ψ t : ℝ) (hd : 0 < d) (hq : d < q) (hψ : 0 < ψ)
    (ht : ψ / d ≤ t) :
    0 < ((2 + q / (d - q)) * ψ * d) ^ 2
        - 4 * (d ^ 2 + q ^ 2) * ((1 + q / (d - q)) * ψ ^ 2 - (q * t) ^ 2)
    ∧ (-((2 + q / (d - q)) * ψ * d)
        - Real.sqrt (((2 + q / (d - q)) * ψ * d) ^ 2
          - 4 * (d ^ 2 + q ^ 2) * ((1 + q / (d - q)) * ψ ^ 2 - (q * t) ^ 2)))
        / (2 * (d ^ 2 + q ^ 2)) ≤ 0
    ∧ -t ≤ (-((2 + q / (d - q)) * ψ * d)
        - Real.sqrt (((2 + q / (d - q)) * ψ * d) ^ 2
          - 4 * (d ^ 2 + q ^ 2) * ((1 + q / (d - q)) * ψ ^ 2 - (q * t) ^ 2)))
        / (2 * (d ^ 2 + q ^ 2)) := by
  have hq0 : 0 < q := lt_trans hd hq
  have hqd : 0 < q - d := sub_pos.mpr hq
  have hdqneg : d - q < 0 := sub_neg.mpr hq
  have hdq : d - q ≠ 0 := ne_of_lt hdqneg
  have ht0 : 0 < t := lt_of_lt_of_le (div_pos hψ hd) ht
  have htd : ψ ≤ d * t := by
    rw [div_le_iff₀ hd] at ht
    linarith
  have ha : (0:ℝ) < d ^ 2 + q ^ 2 := by positivity
  obtain ⟨B, hB⟩ : ∃ x, x = (2 + q / (d - q)) * ψ * d := ⟨_, rfl⟩
  obtain ⟨C, hC⟩ : ∃ x, x = (1 + q / (d - q)) * ψ ^ 2 - (q * t) ^ 2 := ⟨_, rfl⟩
  rw [← hB, ← hC]
  obtain ⟨DS, hDS⟩ : ∃ x, x = B ^ 2 - 4 * (d ^ 2 + q ^ 2) * C := ⟨_, rfl⟩
  rw [← hDS]
  -- discriminant is positive
  have key : DS * (d ^ 2 * (d - q) ^ 2)
      = ψ ^ 2 * q ^ 2 * (4 * q ^ 2 * (q - d) ^ 2 + d ^ 2 * (2 * q - d) ^ 2)
        + 4 * (d ^ 2 + q ^ 2) * q ^ 2 * (d - q) ^ 2 * (d ^ 2 * t ^ 2 - ψ ^ 2) := by
    rw [hDS, hB, hC]
    field_simp [hdq]
    ring
  have hfac : 0 < d ^ 2 * (d - q) ^ 2 := by
    have h1 : (d - q) ^ 2 = (q - d) ^ 2 := by ring
    rw [h1]
    exact mul_pos (pow_pos hd 2) (pow_pos hqd 2)
  have hterm1 : 0 < ψ ^ 2 * q ^ 2 * (4 * q ^ 2 * (q - d) ^ 2 + d ^ 2 * (2 * q - d) ^ 2) := by
    have h1 : 0 < q ^ 2 * (q - d) ^ 2 := mul_pos (pow_pos hq0 2) (pow_pos hqd 2)
    have h2 : (0:ℝ) ≤ d ^ 2 * (2 * q - d) ^ 2 := by positivity
    have h3 : 0 < 4 * q ^ 2 * (q - d) ^ 2 + d ^ 2 * (2 * q - d) ^ 2 := by
      nlinarith [h1, h2]
    exact mul_pos (mul_pos (pow_pos hψ 2) (pow_pos hq0 2)) h3
  have hterm2 : 0 ≤ 4 * (d ^ 2 + q ^ 2) * q ^ 2 * (d - q) ^ 2 * (d ^ 2 * t ^ 2 - ψ ^ 2) := by
    apply mul_nonneg (by positivity)
    nlinarith [htd, hψ, mul_pos hd ht0]
  have hdisc : 0 < DS := by
    nlinarith [key, hfac, hterm1, hterm2]
  have hsqrt0 : 0 ≤ Real.sqrt DS := Real.sqrt_nonneg _
  -- the negative root is nonpositive
  have hc : C < 0 := by
    have hCd : C * (d - q) = d * ψ ^ 2 - (q * t) ^ 2 * (d - q) := by
      rw [hC]; field_simp [hdq]; ring
    nlinarith [hCd, mul_pos hd (pow_pos hψ 2),
      mul_nonneg (sq_nonneg (q * t)) hqd.le, hdqneg]
  have hb2 : B ^ 2 < DS := by
    rw [hDS]
    nlinarith [mul_pos ha (neg_pos.mpr hc)]
  have hnegB : -B ≤ Real.sqrt DS := by
    calc -B ≤ |B| := neg_le_abs B
    _ = Real.sqrt (B ^ 2) := (Real.sqrt_sq_eq_abs B).symm
    _ ≤ Real.sqrt DS := Real.sqrt_le_sqrt hb2.le
  have hx0 : (-B - Real.sqrt DS) / (2 * (d ^ 2 + q ^ 2)) ≤ 0 := by
    apply div_nonpos_of_nonpos_of_nonneg
    · linarith
    · positivity
  refine ⟨hdisc, hx0, ?_⟩
  -- lower bound: -t ≤ x
  rw [le_div_iff₀ (by positivity : (0:ℝ) < 2 * (d ^ 2 + q ^ 2))]
  have h2atB : 0 ≤ 2 * (d ^ 2 + q ^ 2) * t - B := by
    have h2 : B * (q - d) = (q - 2 * d) * ψ * d := by
      rw [hB]; field_simp [hdq]; ring
    have idd : d * (2 * (d ^ 2 + q ^ 2) * t * (q - d) - (q - 2 * d) * ψ * d)
        = 2 * (d ^ 2 + q ^ 2) * (q - d) * (d * t - ψ)
          + ψ * q * ((d - q) ^ 2 + q ^ 2) := by ring
    have hpos : 0 ≤ 2 * (d ^ 2 + q ^ 2) * (q - d) * (d * t - ψ) := by
      apply mul_nonneg (mul_nonneg (by positivity) hqd.le)
      linarith
    have hSOS : 0 ≤ ψ * q * ((d - q) ^ 2 + q ^ 2) := by positivity
    have h3 : (q - 2 * d) * ψ * d ≤ 2 * (d ^ 2 + q ^ 2) * t * (q - d) := by
      nlinarith [idd, hpos, hSOS, hd]
    nlinarith [h2, h3, hqd]
  have hF : 0 ≤ (d ^ 2 + q ^ 2) * t ^ 2 - B * t + C := by
    have idF : ((d ^ 2 + q ^ 2) * t ^ 2 - B * t + C) * (d - q)
        = d * (d * t - ψ) * ((d - q) * t - ψ) := by
      rw [hB, hC]; field_simp [hdq]; ring
    have hs1 : 0 ≤ d * t - ψ := by linarith
    have hs2 : (d - q) * t - ψ < 0 := by
      nlinarith [mul_neg_of_neg_of_pos hdqneg ht0]
    nlinarith [idF, mul_nonpos_of_nonneg_of_nonpos
      (mul_nonneg hd.le hs1) hs2.le, hdqneg]
  have hdisc_le : DS ≤ (2 * (d ^ 2 + q ^ 2) * t - B) ^ 2 := by
    have hid : (2 * (d ^ 2 + q ^ 2) * t - B) ^ 2 - DS
        = 4 * (d ^ 2 + q ^ 2) * ((d ^ 2 + q ^ 2) * t ^ 2 - B * t + C) := by
      rw [hDS]; ring
    nlinarith [hid, mul_nonneg (by positivity : (0:ℝ) ≤ 4 * (d ^ 2 + q ^ 2)) hF]
  have hsqle : Real.sqrt DS ≤ 2 * (d ^ 2 + q ^ 2) * t - B := by
    calc Real.sqrt DS ≤ Real.sqrt ((2 * (d ^ 2 + q ^ 2) * t - B) ^ 2) :=
          Real.sqrt_le_sqrt hdisc_le
    _ = |2 * (d ^ 2 + q ^ 2) * t - B| := Real.sqrt_sq_eq_abs _
    _ = 2 * (d ^ 2 + q ^ 2) * t - B := abs_of_nonneg h2atB
  linarith

lemma mtpv_root_props (s : OptimalLoci) (t : ℝ) (hd : 0 < s.L_d)
    (hq : s.L_d < s.L_q) (hpsi : 0 < s.psi_f) (ht : s.psi_f / s.L_d ≤ t) :
    0 < mtpvDisc s t
    ∧ (-mtpvB s - Real.sqrt (mtpvDisc s t)) / (2 * mtpvA s) ≤ 0
    ∧ -t ≤ (-mtpvB s - Real.sqrt (mtpvDisc s t)) / (2 * mtpvA s) := by
  have h := root_props_pure s.L_d s.L_q s.psi_f t hd hq hpsi ht
  exact h

lemma mtpv_point_eval_valid (s : OptimalLoci) (t : ℝ) (hd : 0 < s.L_d)
    (hq : s.L_d < s.L_q) (hpsi : 0 < s.psi_f) (ht : s.psi_f / s.L_d ≤ t) :
    mtpvPoint s t
      = (some ((-mtpvB s - Real.sqrt (mtpvDisc s t)) / (2 * mtpvA s)),
         some (Real.sqrt (t ^ 2
            - ((-mtpvB s - Real.sqrt (mtpvDisc s t)) / (2 * mtpvA s)) ^ 2)))
    ∧ pointAbs (mtpvPoint s t) = some t := by
  obtain ⟨hdisc, hx0, hxt⟩ := mtpv_root_props s t hd hq hpsi ht
  have ht0 : 0 < t := lt_of_lt_of_le (div_pos hpsi hd) ht
  have hx2 : ((-mtpvB s - Real.sqrt (mtpvDisc s t)) / (2 * mtpvA s)) ^ 2 ≤ t ^ 2 :=
    sq_le_sq' hxt (le_trans hx0 ht0.le)
  have hpt : mtpvPoint s t
      = (some ((-mtpvB s - Real.sqrt (mtpvDisc s t)) / (2 * mtpvA s)),
         some (Real.sqrt (t ^ 2
            - ((-mtpvB s - Real.sqrt (mtpvDisc s t)) / (2 * mtpvA s)) ^ 2))) := by
    simp only [mtpvPoint, npSqrt_of_nonneg hdisc.le, Option.map_some',
      Option.some_bind]
    rw [npSqrt_of_nonneg (by linarith)]
  refine ⟨hpt, ?_⟩
  rw [hpt]
  simp only [pointAbs]
  rw [Real.sq_sqrt (by linarith : (0:ℝ) ≤ t ^ 2
      - ((-mtpvB s - Real.sqrt (mtpvDisc s t)) / (2 * mtpvA s)) ^ 2),
    show ((-mtpvB s - Real.sqrt (mtpvDisc s t)) / (2 * mtpvA s)) ^ 2
      + (t ^ 2 - ((-mtpvB s - Real.sqrt (mtpvDisc s t)) / (2 * mtpvA s)) ^ 2)
      = t ^ 2 by ring,
    Real.sqrt_sq ht0.le]

/-- Claim C7, counterexample: the valid IPMSM parameter set
`p=1, L_d=2, L_q=1, psi_f=1` (with `L_d > L_q`) and `i_max=2, N=2` satisfies
`psi_f/L_d = 1/2 < i_max`, yet the first `mtpv` point is
`i_d = -7/10` with `i_q = NaN` (`np.sqrt` of `(1/2)^2 - (7/10)^2 < 0`), so
its magnitude is NaN rather than the claimed `psi_f/L_d`. -/
theorem mtpv_salience_cex :
    nthPoint ((OptimalLoci.init ⟨1, 2, 1, 1, none⟩).mtpv 2 2) 0
      = some (some (-(7/10)), none)
    ∧ nthAbs ((OptimalLoci.init ⟨1, 2, 1, 1, none⟩).mtpv 2 2) 0 = some none := by
  have h : (OptimalLoci.init ⟨1, 2, 1, 1, none⟩).mtpv 2 2
      = .ok ((linspace ((1:ℝ)/2) 2 2).map fun t =>
          mtpvPoint (OptimalLoci.init ⟨1, 2, 1, 1, none⟩) t) := by
    unfold OptimalLoci.mtpv OptimalLoci.init
    rw [if_neg (by norm_num), if_neg (by norm_num), if_pos (by norm_num),
      if_neg (by norm_num)]
  have h0 : nthPoint ((OptimalLoci.init ⟨1, 2, 1, 1, none⟩).mtpv 2 2) 0
      = some (mtpvPoint (OptimalLoci.init ⟨1, 2, 1, 1, none⟩)
          ((1:ℝ)/2 + ((0:ℕ):ℝ) * ((2:ℝ) - (1:ℝ)/2) / (((2:ℕ):ℝ) - 1))) := by
    rw [h]
    simp only [nthPoint]
    rw [List.getElem?_map, linspace_getElem? _ _ (by norm_num : 0 < 2),
      Option.map_some']
  rw [show (1:ℝ)/2 + ((0:ℕ):ℝ) * ((2:ℝ) - (1:ℝ)/2) / (((2:ℕ):ℝ) - 1)
      = (1:ℝ)/2 by norm_num] at h0
  have hpt : mtpvPoint (OptimalLoci.init ⟨1, 2, 1, 1, none⟩) ((1:ℝ)/2)
      = (some (-(7/10)), none) := by
    apply mtpvPoint_iq_nan _ _ 1 (-(7/10))
    · norm_num [mtpvDisc, mtpvA, mtpvB, mtpvC, mtpvK, OptimalLoci.init]
    · norm_num
    · norm_num [mtpvA, mtpvB, mtpvK, OptimalLoci.init]
    · norm_num
  refine ⟨by rw [h0, hpt], ?_⟩
  simp only [nthAbs]
  rw [h0, hpt]
  rfl

/-- Claim C7, amended: for every valid IPMSM parameter set with the standard
saliency `L_d < L_q` and `psi_f/L_d < i_max`, `N >= 2`, the call
`mtpv(i_max, N)` returns exactly `N` points; the `j`-th point has
`i_d = (-b - sqrt(b^2 - 4*a*c))/(2*a)` (the negative root of the quadratic)
and `i_q = sqrt(|i|^2 - i_d^2)`, and its magnitude is exactly the `j`-th
sample `psi_f/L_d + j*(i_max - psi_f/L_d)/(N-1)`, running linearly from
`psi_f/L_d` to `i_max`. -/
theorem mtpv_ipmsm_locus (pars : MotorParameters) (i_max : ℝ) (N : ℕ)
    (hp : 0 < pars.p) (hLd : 0 < pars.L_d) (hsal : pars.L_d < pars.L_q)
    (hpsi : 0 < pars.psi_f) (hknee : pars.psi_f / pars.L_d < i_max)
    (hN : 2 ≤ N) :
    Except.map List.length ((OptimalLoci.init pars).mtpv i_max N) = .ok N
    ∧ ∀ j, j < N →
        nthPoint ((OptimalLoci.init pars).mtpv i_max N) j
          = some (some ((-mtpvB (OptimalLoci.init pars)
                - Real.sqrt (mtpvDisc (OptimalLoci.init pars)
                    (pars.psi_f / pars.L_d
                      + (j:ℝ) * (i_max - pars.psi_f / pars.L_d) / ((N:ℝ) - 1))))
              / (2 * mtpvA (OptimalLoci.init pars))),
            some (Real.sqrt ((pars.psi_f / pars.L_d
                + (j:ℝ) * (i_max - pars.psi_f / pars.L_d) / ((N:ℝ) - 1)) ^ 2
              - ((-mtpvB (OptimalLoci.init pars)
                - Real.sqrt (mtpvDisc (OptimalLoci.init pars)
                    (pars.psi_f / pars.L_d
                      + (j:ℝ) * (i_max - pars.psi_f / pars.L_d) / ((N:ℝ) - 1))))
              / (2 * mtpvA (OptimalLoci.init pars))) ^ 2)))
        ∧ nthAbs ((OptimalLoci.init pars).mtpv i_max N) j
            = some (some (pars.psi_f / pars.L_d
                + (j:ℝ) * (i_max - pars.psi_f / pars.L_d) / ((N:ℝ) - 1))) := by
  have h0' : (OptimalLoci.init pars).psi_f ≠ 0 := hpsi.ne'
  have hLd' : (OptimalLoci.init pars).L_d ≠ 0 := hLd.ne'
  have hknee' : (OptimalLoci.init pars).psi_f / (OptimalLoci.init pars).L_d
      < i_max := hknee
  have hdq' : (OptimalLoci.init pars).L_d - (OptimalLoci.init pars).L_q ≠ 0 :=
    sub_ne_zero.mpr (ne_of_lt hsal)
  have hcall : (OptimalLoci.init pars).mtpv i_max N
      = .ok ((linspace (pars.psi_f / pars.L_d) i_max N).map fun t =>
          mtpvPoint (OptimalLoci.init pars) t) := by
    unfold OptimalLoci.mtpv
    rw [if_neg h0', if_neg hLd', if_pos hknee', if_neg hdq']
    rfl
  refine ⟨?_, ?_⟩
  · rw [hcall]
    simp only [Except.map, List.length_map, linspace_length]
  · intro j hj
    have hN1 : (0:ℝ) < (N:ℝ) - 1 := by
      have h2N : (2:ℝ) ≤ (N:ℝ) := by exact_mod_cast hN
      linarith
    have htj : pars.psi_f / pars.L_d ≤ pars.psi_f / pars.L_d
        + (j:ℝ) * (i_max - pars.psi_f / pars.L_d) / ((N:ℝ) - 1) := by
      have hj0 : (0:ℝ) ≤ (j:ℝ) := Nat.cast_nonneg j
      have hstep : 0 ≤ (j:ℝ) * (i_max - pars.psi_f / pars.L_d) / ((N:ℝ) - 1) :=
        div_nonneg (mul_nonneg hj0 (by linarith)) hN1.le
      linarith
    have hprops := mtpv_point_eval_valid (OptimalLoci.init pars)
      (pars.psi_f / pars.L_d
        + (j:ℝ) * (i_max - pars.psi_f / pars.L_d) / ((N:ℝ) - 1))
      hLd hsal hpsi htj
    constructor
    · rw [hcall]
      simp only [nthPoint]
      rw [List.getElem?_map, linspace_getElem? _ _ hj, Option.map_some',
        hprops.1]
    · rw [hcall]
      simp only [nthAbs, nthPoint]
      rw [List.getElem?_map, linspace_getElem? _ _ hj, Option.map_some',
        Option.map_some', hprops.2]

/-- Claim C7, witness for the amended theorem at
`p=3, L_d=1, L_q=2, psi_f=1, i_max=2, N=2`: the locus has exactly 2 points
and the first point has magnitude `psi_f/L_d = 1`. -/
theorem mtpv_ipmsm_locus_witness :
    ((0:ℝ) < (⟨3, 1, 2, 1, none⟩ : MotorParameters).p
      ∧ (0:ℝ) < (⟨3, 1, 2, 1, none⟩ : MotorParameters).L_d
      ∧ (⟨3, 1, 2, 1, none⟩ : MotorParameters).L_d
          < (⟨3, 1, 2, 1, none⟩ : MotorParameters).L_q
      ∧ (0:ℝ) < (⟨3, 1, 2, 1, none⟩ : MotorParameters).psi_f
      ∧ (⟨3, 1, 2, 1, none⟩ : MotorParameters).psi_f
          / (⟨3, 1, 2, 1, none⟩ : MotorParameters).L_d < (2:ℝ)
      ∧ 2 ≤ 2)
    ∧ (Except.map List.length
          ((OptimalLoci.init ⟨3, 1, 2, 1, none⟩).mtpv 2 2) = .ok 2
        ∧ nthAbs ((OptimalLoci.init ⟨3, 1, 2, 1, none⟩).mtpv 2 2) 0
            = some (some ((⟨3, 1, 2, 1, none⟩ : MotorParameters).psi_f
                / (⟨3, 1, 2, 1, none⟩ : MotorParameters).L_d
              + ((0:ℕ):ℝ) * ((2:ℝ)
                - (⟨3, 1, 2, 1, none⟩ : MotorParameters).psi_f
                  / (⟨3, 1, 2, 1, none⟩ : MotorParameters).L_d)
                / (((2:ℕ):ℝ) - 1)))) := by
  refine ⟨⟨by norm_num, by norm_num, by norm_num, by norm_num, by norm_num,
    by norm_num⟩, ?_, ?_⟩
  · exact (mtpv_ipmsm_locus ⟨3, 1, 2, 1, none⟩ 2 2 (by norm_num) (by norm_num)
      (by norm_num) (by norm_num) (by norm_num) (by norm_num)).1
  · exact ((mtpv_ipmsm_locus ⟨3, 1, 2, 1, none⟩ 2 2 (by norm_num) (by norm_num)
      (by norm_num) (by norm_num) (by norm_num) (by norm_num)).2 0
      (by norm_num)).2
